import Mathlib

/-!
Verification of the GooseBot PR-review script (scripts/goosebot_review.py).

The Python source is shallowly embedded: pure functions become Lean
functions, object methods become state-passing functions, the filesystem
and the two network collaborators (GitHub, the model provider) become
explicit parameters, and Python string builtins are modelled as total
functions on the underlying character lists.  Python floats that appear
in the token estimate are modelled as exact rationals; over the small
integer-ish values involved the IEEE rounding of the source never
changes a comparison that the theorems below depend on.
-/

namespace GoosebotReview

/-! ### Embeddings of the Python string builtins used by the script -/

/-- Model of Python `s.split(",")` (for non-empty `s` this is the exact
comma split; the callers below guard the empty case themselves). -/
def splitCommaAux : List Char → List (List Char)
  | [] => [[]]
  | c :: cs =>
    match splitCommaAux cs with
    | [] => [[c]]
    | a :: as => if c = ',' then [] :: (a :: as) else (c :: a) :: as

/-- String-level wrapper for `splitCommaAux`. -/
def split_comma (s : String) : List String :=
  (splitCommaAux s.data).map (fun l => ⟨l⟩)

/-- Model of Python `s.split()` (no argument): split on whitespace runs. -/
def splitWsAux : List Char → List (List Char)
  | [] => [[]]
  | c :: cs =>
    match splitWsAux cs with
    | [] => [[c]]
    | a :: as => if c.isWhitespace then [] :: (a :: as) else (c :: a) :: as

/-- Model of Python `len(s.split())`: the number of whitespace-separated
words of `s`. -/
def word_count (s : String) : Nat :=
  ((splitWsAux s.data).filter (fun l => l ≠ [])).length

/-- Model of Python `s.lower()` (ASCII case folding, which is all the
orchestrator's `"error" in content.lower()` test needs). -/
def py_lower (s : String) : String := ⟨s.data.map Char.toLower⟩

/-- Substring occurrence test on character lists. -/
def containsSubAux (needle : List Char) : List Char → Bool
  | [] => needle.isEmpty
  | c :: cs => needle.isPrefixOf (c :: cs) || containsSubAux needle cs

/-- Model of the orchestrator's routing test
`"error" in response["content"].lower()`. -/
def contains_error (s : String) : Bool :=
  containsSubAux "error".data (py_lower s).data

/-- One left-to-right, non-overlapping replacement pass over a character
list (the core of Python `str` substitution of one placeholder). -/
def replaceListAux (pat rep : List Char) : List Char → List Char
  | [] => []
  | c :: cs =>
    if pat ≠ [] ∧ pat.isPrefixOf (c :: cs) then
      rep ++ replaceListAux pat rep (List.drop (pat.length - 1) cs)
    else
      c :: replaceListAux pat rep cs
termination_by l => l.length
decreasing_by
  all_goals simp only [List.length_cons, List.length_drop]
  all_goals omega

/-- Model of substituting one named placeholder, as Python
`str.format` does for each field of its (fixed) field set. -/
def string_replace (s pat rep : String) : String :=
  if pat = "" then s else ⟨replaceListAux pat.data rep.data s.data⟩

/-! ### Embedding of Python `fnmatch.fnmatch`

`fnmatch.fnmatch(name, pattern)` on a POSIX system (where
`os.path.normcase` is the identity) matches the whole of `name` against
the shell glob `pattern`: `*` matches any sequence, `?` any single
character, `[...]` a character class with `!`-negation and ranges, an
unterminated `[` is a literal.  A reversed range (`[z-a]`) is modelled
as the empty range. -/

/-- Split a class body at the first closing bracket, or fail. -/
def findCloseAux : List Char → Option (List Char × List Char)
  | [] => none
  | c :: cs =>
    if c = ']' then some ([], cs)
    else
      match findCloseAux cs with
      | some (a, b) => some (c :: a, b)
      | none => none

/-- Class body parsing: a `]` directly after the opening bracket (and
the optional `!`) belongs to the class. -/
def parseClassBody (cs : List Char) : Option (List Char × List Char) :=
  match cs with
  | ']' :: t =>
    match findCloseAux t with
    | some (a, b) => some (']' :: a, b)
    | none => none
  | _ => findCloseAux cs

/-- Parse the characters following `[` into
(negated, class characters, remaining pattern). -/
def parseClass (cs : List Char) : Option (Bool × List Char × List Char) :=
  match cs with
  | '!' :: cs1 =>
    match parseClassBody cs1 with
    | some (a, b) => some (true, a, b)
    | none => none
  | _ =>
    match parseClassBody cs with
    | some (a, b) => some (false, a, b)
    | none => none

/-- Membership of a character in a parsed class (with `a-b` ranges). -/
def inClass : List Char → Char → Bool
  | [], _ => false
  | a :: '-' :: b :: rest, c => (a ≤ c && c ≤ b) || inClass rest c
  | a :: rest, c => (a = c) || inClass rest c

/-- The glob matcher on character lists (pattern first). -/
def fnmatchL : List Char → List Char → Bool
  | [], s => s.isEmpty
  | '*' :: ps, [] => fnmatchL ps []
  | '*' :: ps, c :: cs => fnmatchL ps (c :: cs) || fnmatchL ('*' :: ps) cs
  | '?' :: ps, _ :: cs => fnmatchL ps cs
  | '?' :: _, [] => false
  | '[' :: ps, c :: cs =>
    (match parseClass ps with
     | some (neg, set, rest) => (inClass set c != neg) && fnmatchL rest cs
     | none => ('[' = c) && fnmatchL ps cs)
  | '[' :: _, [] => false
  | p :: ps, c :: cs => (p = c) && fnmatchL ps cs
  | _ :: _, [] => false
termination_by p s => (s.length, p.length)

/-- Model of `fnmatch.fnmatch(name, pattern)`. -/
def fnmatch (name pattern : String) : Bool :=
  fnmatchL pattern.data name.data

/-! ### FileFilterConfig (goosebot_review.py lines 28-74) -/

/-- The constructed filter configuration: the two pattern lists. -/
structure FileFilterConfig where
  whitelist_patterns : List String
  blacklist_patterns : List String
deriving DecidableEq

/-- `FileFilterConfig.__init__`: each comma-separated pattern string is
split on commas when non-empty (Python truthiness); an empty whitelist
string defaults to `["*"]` and an empty blacklist string to `[]`. -/
def FileFilterConfig.init (whitelist_patterns blacklist_patterns : String) :
    FileFilterConfig :=
  { whitelist_patterns :=
      if whitelist_patterns ≠ "" then split_comma whitelist_patterns else ["*"]
    blacklist_patterns :=
      if blacklist_patterns ≠ "" then split_comma blacklist_patterns else [] }

/-- `FileFilterConfig.should_review_file`: blacklist patterns are
checked first and any match excludes the file; otherwise the file is
included exactly when some whitelist pattern matches. -/
def FileFilterConfig.should_review_file (cfg : FileFilterConfig)
    (filename : String) : Bool :=
  if cfg.blacklist_patterns.any (fun pattern => fnmatch filename pattern) then
    false
  else
    cfg.whitelist_patterns.any (fun pattern => fnmatch filename pattern)

/-- Modelled from the spec: the spec describes the comma-provided
pattern lists as "split and trimmed", i.e. each comma piece stripped of
leading and trailing whitespace (Python `str.strip`). -/
def py_strip (s : String) : String :=
  ⟨((s.data.dropWhile Char.isWhitespace).reverse.dropWhile
      Char.isWhitespace).reverse⟩

/-- Modelled from the spec: splitting a pattern string on commas and
trimming whitespace from each resulting pattern. -/
def split_and_trim (s : String) : List String :=
  (split_comma s).map py_strip

/-! ### TokenUsageTracker (goosebot_review.py lines 76-116) -/

/-- The tracker's state: the configured ceiling and the running total.
Python integers are modelled as `Int`. -/
structure TokenUsageTracker where
  budget_limit : Int
  current_usage : Int
deriving DecidableEq

/-- `TokenUsageTracker.can_process`: a pure check.  The caller passes a
Python float (`word_count * 1.3 + max_tokens`), modelled as an exact
rational; the method reads the state and returns it unchanged. -/
def TokenUsageTracker.can_process (t : TokenUsageTracker)
    (estimated_tokens : ℚ) : Bool × TokenUsageTracker :=
  (decide ((t.current_usage : ℚ) + estimated_tokens ≤ (t.budget_limit : ℚ)), t)

/-- `TokenUsageTracker.record_usage`: adds the two reported counts to
`current_usage` and returns the updated total together with the updated
state. -/
def TokenUsageTracker.record_usage (t : TokenUsageTracker)
    (prompt_tokens completion_tokens : Int) : Int × TokenUsageTracker :=
  let usage := prompt_tokens + completion_tokens
  let t2 := { t with current_usage := t.current_usage + usage }
  (t2.current_usage, t2)

/-! ### File changes and filtering (goosebot_review.py lines 189-239) -/

/-- One entry of the `files_changed` list built by `get_pr_details`. -/
structure FileChange where
  filename : String
  status : String
  additions : Int
  deletions : Int
  changes : Int
deriving DecidableEq

/-- `filter_relevant_files`: the loop appends, in input order, exactly
the entries whose filename passes `should_review_file`. -/
def filter_relevant_files (files_changed : List FileChange)
    (file_filter : FileFilterConfig) : List FileChange :=
  files_changed.foldl
    (fun relevant_files file =>
      if file_filter.should_review_file file.filename then
        relevant_files ++ [file]
      else
        relevant_files)
    []

/-! ### Context assembly (goosebot_review.py lines 118-150)

The filesystem is modelled as a partial map from paths to file
contents (`none` = the path does not exist). -/

/-- The fixed priority order of the six memory-bank documents. -/
def context_files : List String :=
  ["projectbrief.md", "productContext.md", "systemPatterns.md",
   "techContext.md", "activeContext.md", "progress.md"]

/-- `gather_project_context`: starting from the empty string, append
one header+content+blank-line block per existing document, in order;
a missing document leaves the accumulator untouched. -/
def gather_project_context (fs : String → Option String) : String :=
  context_files.foldl
    (fun context filename =>
      match fs ("memory-bank/" ++ filename) with
      | some content => context ++ ("## " ++ filename ++ "\n" ++ content ++ "\n\n")
      | none => context)
    ""

/-- The block contributed by one document (empty if it is missing);
used to state what `gather_project_context` produces. -/
def context_block (fs : String → Option String) (filename : String) : String :=
  match fs ("memory-bank/" ++ filename) with
  | some content => "## " ++ filename ++ "\n" ++ content ++ "\n\n"
  | none => ""

/-! ### Prompt template loading (goosebot_review.py lines 152-170) -/

/-- The path the (scope, version) key resolves to. -/
def template_path (scope version : String) : String :=
  "prompts/" ++ version ++ "/" ++ scope ++ "_review.md"

/-- `load_prompt_template`: read the resolved file; on
`FileNotFoundError` the script logs and calls `sys.exit(1)`, modelled
as `Except.error 1`. -/
def load_prompt_template (fs : String → Option String)
    (scope version : String) : Except Nat String :=
  match fs (template_path scope version) with
  | some content => Except.ok content
  | none => Except.error 1

/-! ### Prompt formatting (goosebot_review.py lines 331-344, 420-425) -/

/-- `format_files_changed_summary`: one bullet line per file. -/
def format_files_changed_summary (files : List FileChange) : String :=
  files.foldl
    (fun result file =>
      result ++ ("- " ++ file.filename ++ " (" ++ file.status ++ ", +"
        ++ toString file.additions ++ ", -" ++ toString file.deletions ++ ")\n"))
    ""

/-- The `prompt_template.format(...)` call of `main`, modelled as
substitution of the four named placeholders. -/
def format_prompt (template project_context pr_title pr_description
    files_changed : String) : String :=
  string_replace
    (string_replace
      (string_replace
        (string_replace template "{project_context}" project_context)
        "{pr_title}" pr_title)
      "{pr_description}" pr_description)
    "{files_changed}" files_changed

/-! ### The model-provider call (goosebot_review.py lines 261-329) -/

/-- What the external Anthropic collaborator would do for this request:
either return generated text with the provider-reported token counts,
or raise, with the given message. -/
inductive ApiOutcome where
  | success (text : String) (input_tokens output_tokens : Int)
  | failure (message : String)
deriving DecidableEq

/-- The dictionary `call_anthropic_api` returns. -/
structure ApiResponse where
  content : String
  prompt_tokens : Int
  completion_tokens : Int
deriving DecidableEq

/-- The pre-flight estimate `len(prompt.split()) * 1.3` (a Python
float, modelled as an exact rational; no rounding occurs). -/
def estimated_tokens (prompt : String) : ℚ :=
  (word_count prompt : ℚ) * (13 / 10)

/-- `call_anthropic_api`.  Returns `Except.error 1` for the
`sys.exit(1)` taken when the API key is absent; otherwise returns the
response dictionary, the tracker state after the call, and whether the
provider was actually contacted. -/
def call_anthropic_api (api_key_present : Bool) (prompt : String)
    (token_tracker : TokenUsageTracker) (api : ApiOutcome)
    (max_tokens : Int) :
    Except Nat (ApiResponse × TokenUsageTracker × Bool) :=
  if api_key_present = false then
    Except.error 1
  else if (token_tracker.can_process
      (estimated_tokens prompt + (max_tokens : ℚ))).1 = false then
    Except.ok
      ({ content := "Error: Token budget exceeded. Unable to complete review.",
         prompt_tokens := 0, completion_tokens := 0 },
       token_tracker, false)
  else
    match api with
    | ApiOutcome.success text input_tokens output_tokens =>
      Except.ok
        ({ content := text, prompt_tokens := input_tokens,
           completion_tokens := output_tokens },
         (token_tracker.record_usage input_tokens output_tokens).2, true)
    | ApiOutcome.failure message =>
      Except.ok
        ({ content := "Error: Failed to get response from Anthropic API: " ++ message,
           prompt_tokens := 0, completion_tokens := 0 },
         token_tracker, true)

/-! ### The orchestrator `main` (goosebot_review.py lines 365-440)

The external collaborators are all explicit inputs: the PR data the
GitHub client returned, the filesystem, and the model provider's
behavior.  The observable outcome is either the comment text passed to
`post_pr_comment` or a `sys.exit` code, plus whether the provider was
contacted. -/

/-- The inputs `main` consumes after the GitHub client calls succeed. -/
structure ReviewEnv where
  api_key_present : Bool
  files_changed : List FileChange
  file_filter : FileFilterConfig
  fs : String → Option String
  token_tracker : TokenUsageTracker
  pr_title : String
  pr_description : String
  scope : String
  version : String
  api : ApiOutcome

/-- The run's observable terminal action. -/
inductive RunOutcome where
  | posted (comment : String)
  | exited (code : Nat)
deriving DecidableEq

/-- The review pipeline of `main` from the point where the PR details
are in hand: filter, assemble context, load the template, format the
prompt, call the provider, route the result.  The second component
records whether the provider was contacted. -/
def run_review (env : ReviewEnv) : RunOutcome × Bool :=
  let relevant_files := filter_relevant_files env.files_changed env.file_filter
  if relevant_files.isEmpty then
    (RunOutcome.posted "## GooseBot PR Review\n\nNo relevant files found to review based on current filter settings.",
     false)
  else
    let files_changed_summary := format_files_changed_summary relevant_files
    let project_context := gather_project_context env.fs
    match load_prompt_template env.fs env.scope env.version with
    | Except.error code => (RunOutcome.exited code, false)
    | Except.ok prompt_template =>
      let prompt := format_prompt prompt_template project_context
        env.pr_title env.pr_description files_changed_summary
      match call_anthropic_api env.api_key_present prompt
          env.token_tracker env.api 4000 with
      | Except.error code => (RunOutcome.exited code, false)
      | Except.ok (response, _, called) =>
        if contains_error response.content then
          (RunOutcome.posted ("## GooseBot Error\n\n" ++ response.content), called)
        else
          (RunOutcome.posted response.content, called)

/-! ### Auxiliary definitions used only to state theorems -/

/-- Re-joining a comma split (used to characterize `split_comma`). -/
def joinCommaAux : List (List Char) → List Char
  | [] => []
  | [a] => a
  | a :: b :: r => a ++ ',' :: joinCommaAux (b :: r)

/-- String-level wrapper for `joinCommaAux`. -/
def join_comma (l : List String) : String :=
  ⟨joinCommaAux (l.map (fun s => s.data))⟩

/-- A concrete environment whose (otherwise well-formed) filesystem
has no prompt template: used to exhibit the abort path. -/
def envNoTemplate : ReviewEnv :=
  { api_key_present := true
    files_changed := [⟨"a.py", "modified", 1, 1, 2⟩]
    file_filter := ⟨["*"], []⟩
    fs := fun _ => none
    token_tracker := ⟨100000, 0⟩
    pr_title := "t"
    pr_description := "d"
    scope := "clarity"
    version := "v1"
    api := ApiOutcome.success "x" 1 1 }

/-- A concrete environment where the provider call succeeds and the
review text merely mentions the word "Error": used to exhibit the
orchestrator's routing behavior. -/
def envErrorWording : ReviewEnv :=
  { api_key_present := true
    files_changed := [⟨"a.py", "modified", 1, 1, 2⟩]
    file_filter := ⟨["*"], []⟩
    fs := fun path => if path = "prompts/v1/clarity_review.md" then some "" else none
    token_tracker := ⟨100000, 0⟩
    pr_title := "t"
    pr_description := "d"
    scope := "clarity"
    version := "v1"
    api := ApiOutcome.success "The code handles Error paths well." 10 20 }

/-! ## Theorems -/

/-! ### Helper lemmas -/

theorem splitCommaAux_ne_nil (cs : List Char) : splitCommaAux cs ≠ [] := by
  induction cs with
  | nil => simp [splitCommaAux]
  | cons c cs ih =>
    simp only [splitCommaAux]
    match h : splitCommaAux cs with
    | [] => exact absurd h ih
    | a :: as =>
      by_cases hc : c = ','
      · simp [hc]
      · simp [hc]

theorem joinCommaAux_cons (a : List Char) (as : List (List Char)) :
    joinCommaAux ((a : List Char) :: as) =
      a ++ (match as with
            | [] => []
            | b :: r => ',' :: joinCommaAux (b :: r)) := by
  match as with
  | [] => simp [joinCommaAux]
  | b :: r => simp [joinCommaAux]

theorem join_split_comma_aux (cs : List Char) :
    joinCommaAux (splitCommaAux cs) = cs := by
  induction cs with
  | nil => simp [splitCommaAux, joinCommaAux]
  | cons c cs ih =>
    simp only [splitCommaAux]
    match h : splitCommaAux cs with
    | [] => exact absurd h (splitCommaAux_ne_nil cs)
    | a :: as =>
      rw [h] at ih
      by_cases hc : c = ','
      · have hgoal : joinCommaAux ([] :: a :: as) = ',' :: cs := by
          simp [joinCommaAux, ih]
        subst hc
        simpa using hgoal
      · have hgoal : joinCommaAux ((c :: a) :: as) = c :: cs := by
          rw [joinCommaAux_cons, List.cons_append, ← joinCommaAux_cons, ih]
        simpa [hc] using hgoal

theorem splitCommaAux_no_comma (cs : List Char) :
    ∀ l ∈ splitCommaAux cs, ',' ∉ l := by
  induction cs with
  | nil => simp [splitCommaAux]
  | cons c cs ih =>
    simp only [splitCommaAux]
    match h : splitCommaAux cs with
    | [] => exact absurd h (splitCommaAux_ne_nil cs)
    | a :: as =>
      rw [h] at ih
      by_cases hc : c = ','
      · simp only [if_pos hc]
        intro l hl
        rcases List.mem_cons.mp hl with hnil | htail
        · simp [hnil]
        · exact ih l htail
      · simp only [if_neg hc]
        intro l hl
        rcases List.mem_cons.mp hl with hhead | htail
        · subst hhead
          intro hmem
          rcases List.mem_cons.mp hmem with h1 | h2
          · exact hc h1.symm
          · exact ih a (List.mem_cons_self a as) h2
        · exact ih l (List.mem_cons_of_mem a htail)

/-- `split_comma` really is the comma split: the pieces re-join to the
original string and no piece contains a comma. -/
theorem split_comma_characterization (s : String) :
    join_comma (split_comma s) = s ∧
      ∀ p ∈ split_comma s, ',' ∉ p.data := by
  constructor
  · show join_comma (split_comma s) = s
    cases s with
    | mk data =>
      simp only [join_comma, split_comma]
      rw [List.map_map]
      have : (List.map (String.data ∘ fun l => (⟨l⟩ : String)) (splitCommaAux data)) =
          splitCommaAux data := by
        apply List.map_id''
        intro l
        rfl
      rw [this, join_split_comma_aux]
  · intro p hp
    simp only [split_comma, List.mem_map] at hp
    obtain ⟨l, hl, rfl⟩ := hp
    exact splitCommaAux_no_comma s.data l hl

theorem filter_foldl_eq (p : FileChange → Bool) (l : List FileChange) :
    ∀ acc : List FileChange,
      l.foldl (fun relevant_files file =>
        if p file then relevant_files ++ [file] else relevant_files) acc =
      acc ++ l.filter p := by
  induction l with
  | nil => intro acc; simp
  | cons f t ih =>
    intro acc
    simp only [List.foldl_cons, List.filter_cons]
    by_cases hf : p f
    · rw [if_pos hf, if_pos hf, ih, List.append_assoc]
      rfl
    · rw [if_neg hf, if_neg hf, ih]

theorem filter_relevant_files_eq_filter (files : List FileChange)
    (ff : FileFilterConfig) :
    filter_relevant_files files ff =
      files.filter (fun file => ff.should_review_file file.filename) := by
  unfold filter_relevant_files
  rw [filter_foldl_eq]
  rfl

/-! ### Claim theorems -/

/-- C1: for every path and every filter config, `should_review_file`
returns false when any blacklist pattern glob-matches the path
(regardless of the whitelist); otherwise it returns true exactly when
some whitelist pattern glob-matches; a path matching neither list
yields false (default-deny).  All three facts are packaged as one
characterization: the call returns true iff no blacklist pattern
matches and some whitelist pattern matches. -/
theorem should_review_file_spec (cfg : FileFilterConfig) (path : String) :
    cfg.should_review_file path = true ↔
      ((∀ q ∈ cfg.blacklist_patterns, fnmatch path q = false) ∧
        ∃ q ∈ cfg.whitelist_patterns, fnmatch path q = true) := by
  unfold FileFilterConfig.should_review_file
  by_cases hb : cfg.blacklist_patterns.any (fun pattern => fnmatch path pattern) = true
  · rw [if_pos hb]
    simp only [List.any_eq_true] at hb
    obtain ⟨q, hq, hfq⟩ := hb
    constructor
    · intro h
      exact absurd h (by simp)
    · rintro ⟨hall, -⟩
      have hfalse := hall q hq
      rw [hfalse] at hfq
      exact absurd hfq (by simp)
  · rw [if_neg hb]
    have hb2 : ∀ q ∈ cfg.blacklist_patterns, fnmatch path q = false := by
      intro q hq
      by_contra hne
      exact hb (List.any_eq_true.mpr ⟨q, hq, by simpa using hne⟩)
    simp only [List.any_eq_true]
    constructor
    · intro h
      exact ⟨hb2, h⟩
    · rintro ⟨-, h⟩
      exact h

/-- C2: for every budget state and every estimate, `can_process`
returns true iff `consumed + estimate ≤ limit`, and it returns the
budget state unchanged (both fields). -/
theorem can_process_spec (t : TokenUsageTracker) (e : ℚ) :
    ((t.can_process e).1 = true ↔
      (t.current_usage : ℚ) + e ≤ (t.budget_limit : ℚ)) ∧
      (t.can_process e).2 = t := by
  constructor
  · simp [TokenUsageTracker.can_process]
  · rfl

/-- C3: for every budget state and all non-negative token counts,
`record_usage` adds exactly `prompt_tokens + completion_tokens` to
`current_usage`, returns the updated total, never decreases
`current_usage`, and leaves the limit unchanged. -/
theorem record_usage_spec (t : TokenUsageTracker)
    (prompt_tokens completion_tokens : Int)
    (hp : 0 ≤ prompt_tokens) (hc : 0 ≤ completion_tokens) :
    (t.record_usage prompt_tokens completion_tokens).2.current_usage =
        t.current_usage + (prompt_tokens + completion_tokens) ∧
      (t.record_usage prompt_tokens completion_tokens).1 =
        t.current_usage + (prompt_tokens + completion_tokens) ∧
      t.current_usage ≤
        (t.record_usage prompt_tokens completion_tokens).2.current_usage ∧
      (t.record_usage prompt_tokens completion_tokens).2.budget_limit =
        t.budget_limit := by
  refine ⟨rfl, rfl, ?_, rfl⟩
  simp only [TokenUsageTracker.record_usage]
  omega

/-- Witness for C3 at a concrete budget state. -/
theorem record_usage_spec_witness :
    (TokenUsageTracker.record_usage ⟨1000, 5⟩ 30 70).2.current_usage =
        5 + (30 + 70) ∧
      (TokenUsageTracker.record_usage ⟨1000, 5⟩ 30 70).1 = 5 + (30 + 70) :=
  ⟨(record_usage_spec ⟨1000, 5⟩ 30 70 (by decide) (by decide)).1,
   (record_usage_spec ⟨1000, 5⟩ 30 70 (by decide) (by decide)).2.1⟩

/-- C6: the batch filter returns a subsequence of its input (order
preserved, length bounded), and an entry is in the output iff it is in
the input and its own filename passes `should_review_file` — no
cross-file state. -/
theorem filter_relevant_files_spec (files : List FileChange)
    (ff : FileFilterConfig) :
    filter_relevant_files files ff =
        files.filter (fun file => ff.should_review_file file.filename) ∧
      (filter_relevant_files files ff).Sublist files ∧
      (filter_relevant_files files ff).length ≤ files.length ∧
      ∀ f, f ∈ filter_relevant_files files ff ↔
        f ∈ files ∧ ff.should_review_file f.filename = true := by
  have heq := filter_relevant_files_eq_filter files ff
  refine ⟨heq, ?_, ?_, ?_⟩
  · rw [heq]
    exact List.filter_sublist files
  · rw [heq]
    exact (List.filter_sublist files).length_le
  · intro f
    rw [heq]
    simp [List.mem_filter]

/-- C7 counterexample: the constructor does not trim whitespace.  With
the whitelist string `"a, b"` the code keeps the pattern `" b"` with
its leading space, while the claimed split-and-trim would give `"b"`. -/
theorem filter_config_trim_counterexample :
    (FileFilterConfig.init "a, b" "").whitelist_patterns = ["a", " b"] ∧
      split_and_trim "a, b" = ["a", "b"] ∧
      (FileFilterConfig.init "a, b" "").whitelist_patterns ≠
        split_and_trim "a, b" := by
  refine ⟨by decide, by decide, by decide⟩

/-- C7 (amended): the constructor splits each non-empty pattern string
on commas without trimming; an empty whitelist string yields `["*"]`
and an empty blacklist string yields `[]`.  (That `split_comma` is the
genuine comma split is `split_comma_characterization`.) -/
theorem filter_config_init_spec (w b : String) :
    (FileFilterConfig.init w b).whitelist_patterns =
        (if w = "" then ["*"] else split_comma w) ∧
      (FileFilterConfig.init w b).blacklist_patterns =
        (if b = "" then [] else split_comma b) ∧
      join_comma (FileFilterConfig.init w b).blacklist_patterns =
        (if b = "" then "" else b) := by
  refine ⟨?_, ?_, ?_⟩
  · by_cases hw : w = "" <;> simp [FileFilterConfig.init, hw]
  · by_cases hb : b = "" <;> simp [FileFilterConfig.init, hb]
  · by_cases hb : b = ""
    · simp [FileFilterConfig.init, hb]
      rfl
    · simp only [FileFilterConfig.init, if_neg hb, ne_eq, hb, not_false_iff, if_true]
      exact (split_comma_characterization b).1

theorem gather_foldl (fs : String → Option String) (l : List String) :
    ∀ init : String,
      l.foldl (fun context filename =>
        match fs ("memory-bank/" ++ filename) with
        | some content =>
          context ++ ("## " ++ filename ++ "\n" ++ content ++ "\n\n")
        | none => context) init =
      init ++ l.foldr (fun filename acc => context_block fs filename ++ acc) "" := by
  induction l with
  | nil =>
    intro init
    simp [String.append_empty]
  | cons f t ih =>
    intro init
    simp only [List.foldl_cons, List.foldr_cons]
    rw [ih]
    cases hf : fs ("memory-bank/" ++ f) with
    | none =>
      simp [context_block, hf, String.empty_append]
    | some content =>
      simp [context_block, hf, String.append_assoc]

/-- C8: context assembly walks the six fixed document names in priority
order; each existing document contributes a header+content+blank-line
block and each missing one contributes nothing; with no documents the
result is empty, and with only `projectbrief.md` present the result is
exactly that one block. -/
theorem gather_project_context_spec (fs : String → Option String) (c : String) :
    gather_project_context fs =
        context_block fs "projectbrief.md" ++
          (context_block fs "productContext.md" ++
            (context_block fs "systemPatterns.md" ++
              (context_block fs "techContext.md" ++
                (context_block fs "activeContext.md" ++
                  context_block fs "progress.md")))) ∧
      gather_project_context (fun _ => none) = "" ∧
      gather_project_context
          (fun path => if path = "memory-bank/projectbrief.md" then some c
            else none) =
        "## projectbrief.md\n" ++ c ++ "\n\n" := by
  refine ⟨?_, ?_, ?_⟩
  · unfold gather_project_context
    rw [gather_foldl]
    simp [context_files, String.empty_append, String.append_empty,
      String.append_assoc]
  · rfl
  · simp [gather_project_context, context_files]

/-- C4: whenever the pre-flight budget check rejects, the provider is
not contacted (third component `false`), no fault is raised (the
result is `Except.ok`, not the `sys.exit` error), the returned
dictionary is the fixed budget-exceeded error text with zero token
counts, and the tracker is returned unchanged. -/
theorem budget_rejection_spec (prompt : String) (t : TokenUsageTracker)
    (api : ApiOutcome) (max_tokens : Int)
    (h : (t.can_process (estimated_tokens prompt + (max_tokens : ℚ))).1 = false) :
    call_anthropic_api true prompt t api max_tokens =
      Except.ok
        ({ content := "Error: Token budget exceeded. Unable to complete review.",
           prompt_tokens := 0, completion_tokens := 0 }, t, false) := by
  simp [call_anthropic_api, h]

/-- Witness for C4 at the spec's Scenario B numbers: limit 1000,
consumed 900, pending response budget 150. -/
theorem budget_rejection_spec_witness :
    call_anthropic_api true "" ⟨1000, 900⟩ (ApiOutcome.success "ok" 1 2) 150 =
      Except.ok
        ({ content := "Error: Token budget exceeded. Unable to complete review.",
           prompt_tokens := 0, completion_tokens := 0 }, ⟨1000, 900⟩, false) := by
  apply budget_rejection_spec
  have hw : word_count "" = 0 := by decide
  norm_num [TokenUsageTracker.can_process, estimated_tokens, hw]

/-- C5 counterexample: the code does not round the estimate.  With a
one-word prompt, `max_tokens = 4000` and 4001 tokens of remaining
budget, the code rejects the call (the unrounded float comparison
`0 + (1 * 1.3 + 4000) ≤ 4001` fails), although with the claimed
rounded estimate the admission inequality
`0 + round(1 * 1.3) + 4000 ≤ 4001` holds. -/
theorem token_estimate_rounding_counterexample :
    call_anthropic_api true "w" ⟨4001, 0⟩ (ApiOutcome.success "fine" 2 3) 4000 =
        Except.ok
          ({ content := "Error: Token budget exceeded. Unable to complete review.",
             prompt_tokens := 0, completion_tokens := 0 }, ⟨4001, 0⟩, false) ∧
      ((0 : ℚ) + (((round ((word_count "w" : ℚ) * (13 / 10)) : ℤ) : ℚ)
          + (4000 : ℚ)) ≤ (4001 : ℚ)) := by
  have hw : word_count "w" = 1 := by decide
  constructor
  · have hcp : (TokenUsageTracker.can_process ⟨4001, 0⟩
        (estimated_tokens "w" + (4000 : ℚ))).1 = false := by
      norm_num [TokenUsageTracker.can_process, estimated_tokens, hw]
    simp [call_anthropic_api, hcp]
  · rw [hw]
    norm_num [round_eq]

/-- C5 (amended): the pre-flight estimate is `word_count * 1.3`, kept
as a non-integer value (no rounding), and it decides admission only;
on a completed call the tracker advances by exactly the
provider-reported counts, independent of the estimate. -/
theorem token_estimate_spec (prompt text : String) (t : TokenUsageTracker)
    (input_tokens output_tokens max_tokens : Int) :
    call_anthropic_api true prompt t
        (ApiOutcome.success text input_tokens output_tokens) max_tokens =
      (if (t.current_usage : ℚ) +
            ((word_count prompt : ℚ) * (13 / 10) + (max_tokens : ℚ)) ≤
            (t.budget_limit : ℚ) then
        Except.ok
          ({ content := text, prompt_tokens := input_tokens,
             completion_tokens := output_tokens },
           { budget_limit := t.budget_limit,
             current_usage := t.current_usage + (input_tokens + output_tokens) },
           true)
      else
        Except.ok
          ({ content := "Error: Token budget exceeded. Unable to complete review.",
             prompt_tokens := 0, completion_tokens := 0 }, t, false)) := by
  by_cases hle : (t.current_usage : ℚ) +
      ((word_count prompt : ℚ) * (13 / 10) + (max_tokens : ℚ)) ≤
      (t.budget_limit : ℚ)
  · rw [if_pos hle]
    simp [call_anthropic_api, TokenUsageTracker.can_process, estimated_tokens,
      TokenUsageTracker.record_usage, hle]
  · rw [if_neg hle]
    simp [call_anthropic_api, TokenUsageTracker.can_process, estimated_tokens,
      hle]

/-- C9: template loading resolves the (scope, version) key to its path
and returns the file's full text; an absent template yields the fatal
`sys.exit(1)` (`Except.error 1`), and in the orchestrator this aborts
the run before any provider call is made (the provider-contacted flag
is `false`). -/
theorem load_prompt_template_spec (fs : String → Option String)
    (scope version tpl : String) :
    (fs (template_path scope version) = some tpl →
      load_prompt_template fs scope version = Except.ok tpl) ∧
    (fs (template_path scope version) = none →
      load_prompt_template fs scope version = Except.error 1) ∧
    (∀ env : ReviewEnv,
      (filter_relevant_files env.files_changed env.file_filter).isEmpty = false →
      env.fs (template_path env.scope env.version) = none →
      run_review env = (RunOutcome.exited 1, false)) := by
  refine ⟨?_, ?_, ?_⟩
  · intro h
    simp [load_prompt_template, h]
  · intro h
    simp [load_prompt_template, h]
  · intro env hne hmiss
    simp only [run_review, hne, Bool.false_eq_true, if_false,
      load_prompt_template, hmiss]

/-- Witness for C9: a filesystem with no files at all makes
`load_prompt_template` fail and the run exit with code 1 without
contacting the provider. -/
theorem load_prompt_template_spec_witness :
    load_prompt_template (fun _ => none) "clarity" "v1" = Except.error 1 ∧
      run_review envNoTemplate = (RunOutcome.exited 1, false) :=
  ⟨(load_prompt_template_spec (fun _ => none) "clarity" "v1" "").2.1 rfl,
   (load_prompt_template_spec (fun _ => none) "clarity" "v1" "").2.2
     envNoTemplate
     (by simp [envNoTemplate, filter_relevant_files,
           FileFilterConfig.should_review_file, fnmatch, fnmatchL])
     rfl⟩

theorem envErrorWording_filter :
    filter_relevant_files envErrorWording.files_changed
        envErrorWording.file_filter = [⟨"a.py", "modified", 1, 1, 2⟩] := by
  simp [envErrorWording, filter_relevant_files,
    FileFilterConfig.should_review_file, fnmatch, fnmatchL]

theorem envErrorWording_gather :
    gather_project_context envErrorWording.fs = "" := by
  simp [envErrorWording, gather_project_context, context_files]

theorem envErrorWording_load :
    load_prompt_template envErrorWording.fs "clarity" "v1" = Except.ok "" := by
  have htp : template_path "clarity" "v1" = "prompts/v1/clarity_review.md" := by
    decide
  simp [envErrorWording, load_prompt_template, htp]

theorem format_prompt_empty (a b c d : String) :
    format_prompt "" a b c d = "" := by
  simp [format_prompt, string_replace, replaceListAux]

theorem envErrorWording_call :
    call_anthropic_api true "" ⟨100000, 0⟩
        (ApiOutcome.success "The code handles Error paths well." 10 20) 4000 =
      Except.ok
        ({ content := "The code handles Error paths well.",
           prompt_tokens := 10, completion_tokens := 20 },
         ⟨100000, 30⟩, true) := by
  have hw : word_count "" = 0 := by decide
  have hcp : (TokenUsageTracker.can_process ⟨100000, 0⟩
      (estimated_tokens "" + (4000 : ℚ))).1 = true := by
    norm_num [TokenUsageTracker.can_process, estimated_tokens, hw]
  simp [call_anthropic_api, hcp, TokenUsageTracker.record_usage]

/-- C10: when the pipeline reaches the provider call, the posted
comment is the "## GooseBot Error" notice iff the response text
contains "error" case-insensitively; consequently a successful review
that merely mentions the word "Error" is posted as an error notice
instead of a plain review comment (second conjunct, at a concrete
run). -/
theorem result_routing_spec :
    (∀ (env : ReviewEnv) (tpl : String) (resp : ApiResponse)
        (t2 : TokenUsageTracker) (called : Bool),
      (filter_relevant_files env.files_changed env.file_filter).isEmpty =
        false →
      load_prompt_template env.fs env.scope env.version = Except.ok tpl →
      call_anthropic_api env.api_key_present
          (format_prompt tpl (gather_project_context env.fs) env.pr_title
            env.pr_description
            (format_files_changed_summary
              (filter_relevant_files env.files_changed env.file_filter)))
          env.token_tracker env.api 4000 = Except.ok (resp, t2, called) →
      (run_review env).1 =
        (if contains_error resp.content = true then
          RunOutcome.posted ("## GooseBot Error\n\n" ++ resp.content)
        else
          RunOutcome.posted resp.content)) ∧
      run_review envErrorWording =
        (RunOutcome.posted
          "## GooseBot Error\n\nThe code handles Error paths well.", true) := by
  constructor
  · intro env tpl resp t2 called hne hload hcall
    simp only [run_review, hne, Bool.false_eq_true, if_false, hload, hcall]
    by_cases herr : contains_error resp.content = true
    · simp [herr]
    · simp [herr]
  · have herr : contains_error "The code handles Error paths well." = true := by
      decide
    have hscope : envErrorWording.scope = "clarity" := rfl
    have hversion : envErrorWording.version = "v1" := rfl
    have htracker : envErrorWording.token_tracker = ⟨100000, 0⟩ := rfl
    have hkey : envErrorWording.api_key_present = true := rfl
    have hapi : envErrorWording.api =
        ApiOutcome.success "The code handles Error paths well." 10 20 := rfl
    simp only [run_review, envErrorWording_filter, List.isEmpty_cons,
      Bool.false_eq_true, if_false, hscope, hversion, envErrorWording_load,
      envErrorWording_gather, format_prompt_empty, htracker, hkey, hapi,
      envErrorWording_call, herr, if_true]
    simp

/-- Witness for C10: the routing rule applied at the concrete
environment `envErrorWording`. -/
theorem result_routing_spec_witness :
    (run_review envErrorWording).1 =
      RunOutcome.posted "## GooseBot Error\n\nThe code handles Error paths well." := by
  have h := result_routing_spec.1 envErrorWording ""
    ({ content := "The code handles Error paths well.",
       prompt_tokens := 10, completion_tokens := 20 })
    ⟨100000, 30⟩ true
    (by rw [envErrorWording_filter]; decide)
    (by exact envErrorWording_load)
    (by rw [envErrorWording_gather, format_prompt_empty]
        exact envErrorWording_call)
  rw [h]
  have herr : contains_error "The code handles Error paths well." = true := by
    decide
  simp [herr]

end GoosebotReview
